import Mathlib

/-
  Shallow embedding of the indicator engine of the stock-analyzer
  repository (src/stock_analysis/technical_analysis.py and the indicator
  validation of src/stock_analysis/cli.py).

  Prices are modelled as exact rationals.  The float special values that
  the pipeline can actually produce (NaN from 0/0, plus-infinity from
  positive/0) are modelled explicitly by the carrier type Fq, so that the
  IEEE behaviour of the momentum pipeline is visible to the theorems.
-/

/-- Value carrier for the momentum pipeline: an exact rational or one of
the IEEE special values that elementwise pandas arithmetic can produce. -/
inductive Fq where
  | num (q : ℚ)
  | inf
  | neginf
  | nan
deriving DecidableEq

namespace Fq

/-- IEEE-style addition on the carrier. -/
def add : Fq → Fq → Fq
  | nan, _ => nan
  | num _, nan => nan
  | inf, nan => nan
  | neginf, nan => nan
  | num a, num b => num (a + b)
  | num _, inf => inf
  | inf, num _ => inf
  | inf, inf => inf
  | num _, neginf => neginf
  | neginf, num _ => neginf
  | neginf, neginf => neginf
  | inf, neginf => nan
  | neginf, inf => nan

/-- IEEE-style subtraction on the carrier. -/
def sub : Fq → Fq → Fq
  | nan, _ => nan
  | num _, nan => nan
  | inf, nan => nan
  | neginf, nan => nan
  | num a, num b => num (a - b)
  | num _, inf => neginf
  | num _, neginf => inf
  | inf, num _ => inf
  | neginf, num _ => neginf
  | inf, inf => nan
  | neginf, neginf => nan
  | inf, neginf => inf
  | neginf, inf => neginf

/-- IEEE-style division on the carrier; finite/0 follows numpy: positive
numerator gives plus-infinity, zero numerator gives NaN. -/
def div : Fq → Fq → Fq
  | nan, _ => nan
  | num _, nan => nan
  | inf, nan => nan
  | neginf, nan => nan
  | num a, num b =>
      if b = 0 then
        if a = 0 then nan else if 0 < a then inf else neginf
      else num (a / b)
  | num _, inf => num 0
  | num _, neginf => num 0
  | inf, num b => if 0 ≤ b then inf else neginf
  | neginf, num b => if 0 ≤ b then neginf else inf
  | inf, inf => nan
  | inf, neginf => nan
  | neginf, inf => nan
  | neginf, neginf => nan

/-- Boolean test that a carrier value is a rational inside [lo, hi]
(false on every IEEE special value, as an IEEE comparison would be). -/
def isNumIn (lo hi : ℚ) : Fq → Bool
  | num q => decide (lo ≤ q ∧ q ≤ hi)
  | _ => false

end Fq

/-- Observable outcome of one indicator-method call: the method either
propagates a raised exception or returns (a present value or None). -/
inductive Outcome (α : Type) where
  | raised
  | returned (v : Option α)
deriving DecidableEq

namespace Outcome

/-- True when the call propagated an exception to the caller. -/
def isRaised {α : Type} : Outcome α → Bool
  | raised => true
  | returned _ => false

/-- True when the call returned a present (non-None) value. -/
def isPresent {α : Type} : Outcome α → Bool
  | returned (some _) => true
  | _ => false

end Outcome

/-- Per-step close-price changes, the pandas diff of the close column
(without its leading NaN slot, which the gain and loss series mask to 0). -/
def diffs (xs : List ℚ) : List ℚ :=
  List.zipWith (fun a b => b - a) xs xs.tail

/-- Gain series: the diff where positive, else 0; the leading slot of the
pandas diff is NaN, and the where-mask turns it into 0 as well. -/
def gainsOf (xs : List ℚ) : List ℚ :=
  0 :: (diffs xs).map (fun d => if 0 < d then d else 0)

/-- Loss series: the negated diff where negative, else 0; the leading NaN
slot is likewise masked to 0. -/
def lossesOf (xs : List ℚ) : List ℚ :=
  0 :: (diffs xs).map (fun d => if d < 0 then -d else 0)

/-- The trailing w elements of a list. -/
def lastWindow (w : ℕ) (xs : List ℚ) : List ℚ :=
  xs.drop (xs.length - w)

/-- Last entry of a pandas rolling(w).mean over a NaN-free series: NaN
when the window is 0 or not full, otherwise the exact window mean. -/
def rollingMeanLast (w : ℕ) (xs : List ℚ) : Fq :=
  if w = 0 ∨ xs.length < w then Fq.nan
  else Fq.num ((lastWindow w xs).sum / (w : ℚ))

/-- Average gain at the latest point, as computed inside calculate_rsi. -/
def avgGainsLast (xs : List ℚ) (w : ℕ) : Fq :=
  rollingMeanLast w (gainsOf xs)

/-- Average loss at the latest point, as computed inside calculate_rsi. -/
def avgLossesLast (xs : List ℚ) (w : ℕ) : Fq :=
  rollingMeanLast w (lossesOf xs)

/-- Body of the try-block of calculate_rsi: pandas rolling rejects a
negative window with a ValueError (modelled as the error case); otherwise
the RS and RSI arithmetic is IEEE elementwise arithmetic at the last
index. -/
def rsiBody (closes : List ℚ) (period : ℤ) : Except Unit Fq :=
  if period < 0 then Except.error ()
  else
    let w := period.toNat
    let rs := Fq.div (avgGainsLast closes w) (avgLossesLast closes w)
    Except.ok (Fq.sub (Fq.num 100) (Fq.div (Fq.num 100) (Fq.add (Fq.num 1) rs)))

/-- TechnicalAnalyzer.calculate_rsi: None when no data is set or the
series is shorter than the period; the try-block body otherwise, with
every exception caught and turned into None. -/
def calculate_rsi (data : Option (List ℚ)) (period : ℤ) : Outcome Fq :=
  match data with
  | none => Outcome.returned none
  | some closes =>
      if (closes.length : ℤ) < period then Outcome.returned none
      else
        match rsiBody closes period with
        | Except.error _ => Outcome.returned none
        | Except.ok v => Outcome.returned (some v)

/-- Smoothing weight of a pandas ewm with the span parameter, also the
alpha of the specification: 2 / (span + 1). -/
def alphaOf (span : ℤ) : ℚ :=
  2 / ((span : ℚ) + 1)

/-- Tail of an exponentially weighted mean: prev is the previous smoothed
value, each new observation y contributes with weight a. -/
def ewmaGo (a prev : ℚ) : List ℚ → List ℚ
  | [] => []
  | y :: rest => ((1 - a) * prev + a * y) :: ewmaGo a ((1 - a) * prev + a * y) rest

/-- Full series of a pandas ewm(span, adjust=False).mean: seeded with the
first observation, then the recursive update. -/
def ewma (a : ℚ) : List ℚ → List ℚ
  | [] => []
  | x :: rest => x :: ewmaGo a x rest

/-- Series.ewm(span=span, adjust=False).mean() over the close column. -/
def ewmMean (span : ℤ) (xs : List ℚ) : List ℚ :=
  ewma (alphaOf span) xs

/-- Element at Python index -1, i.e. at index length - 1 (iloc[-1]). -/
def ilocLast (l : List ℚ) : ℚ :=
  l.getD (l.length - 1) 0

/-- Body of the try-block of calculate_macd: pandas ewm rejects a span
below 1 with a ValueError (the error case); otherwise the three smoothed
series and the returned last values. -/
def macdBody (closes : List ℚ) (fast slow signal : ℤ) :
    Except Unit (ℚ × ℚ × ℚ) :=
  if fast < 1 ∨ slow < 1 ∨ signal < 1 then Except.error ()
  else
    let fastE := ewmMean fast closes
    let slowE := ewmMean slow closes
    let line := List.zipWith (fun a b => a - b) fastE slowE
    let sig := ewmMean signal line
    let hist := List.zipWith (fun a b => a - b) line sig
    Except.ok (ilocLast line, ilocLast sig, ilocLast hist)

/-- TechnicalAnalyzer.calculate_macd: None when no data is set or the
series is shorter than the slow period; the try-block body otherwise,
with every exception caught and turned into None. -/
def calculate_macd (data : Option (List ℚ)) (fast slow signal : ℤ) :
    Outcome (ℚ × ℚ × ℚ) :=
  match data with
  | none => Outcome.returned none
  | some closes =>
      if (closes.length : ℤ) < slow then Outcome.returned none
      else
        match macdBody closes fast slow signal with
        | Except.error _ => Outcome.returned none
        | Except.ok v => Outcome.returned (some v)

/-- Value carrier for the volatility-band pipeline: an exact real or NaN.
Infinities cannot arise there (no division), so they are not part of the
reachable value space. -/
inductive FR where
  | num (r : ℝ)
  | nan

namespace FR

/-- IEEE-style addition: NaN propagates. -/
def add : FR → FR → FR
  | nan, _ => nan
  | num _, nan => nan
  | num a, num b => num (a + b)

/-- IEEE-style subtraction: NaN propagates. -/
def sub : FR → FR → FR
  | nan, _ => nan
  | num _, nan => nan
  | num a, num b => num (a - b)

/-- IEEE-style multiplication: NaN propagates. -/
def mul : FR → FR → FR
  | nan, _ => nan
  | num _, nan => nan
  | num a, num b => num (a * b)

/-- IEEE-style comparison: any comparison against NaN is false. -/
def Le : FR → FR → Prop
  | num a, num b => a ≤ b
  | nan, _ => False
  | num _, nan => False

end FR

/-- Mean of the trailing window, the last entry of rolling(w).mean. -/
def windowMean (w : ℕ) (xs : List ℚ) : ℚ :=
  (lastWindow w xs).sum / (w : ℚ)

/-- Sample variance (ddof = 1) of the trailing window, as pandas
rolling(w).std squares it; only used for windows of at least 2. -/
def windowVarQ (w : ℕ) (xs : List ℚ) : ℚ :=
  ((lastWindow w xs).map (fun x => (x - windowMean w xs) ^ 2)).sum / ((w - 1 : ℕ) : ℚ)

/-- Last entry of rolling(w).mean as a band value. -/
def rollingMeanLastR (w : ℕ) (xs : List ℚ) : FR :=
  if w = 0 ∨ xs.length < w then FR.nan
  else FR.num ((windowMean w xs : ℚ) : ℝ)

/-- Last entry of rolling(w).std with ddof = 1: NaN when the window holds
fewer than 2 observations (the 0/0 sample variance), the exact square
root of the sample variance otherwise. -/
noncomputable def rollingStdLast (w : ℕ) (xs : List ℚ) : FR :=
  if w ≤ 1 ∨ xs.length < w then FR.nan
  else FR.num (Real.sqrt ((windowVarQ w xs : ℚ) : ℝ))

/-- The dict returned by calculate_bollinger_bands, with its keys. -/
structure Bands where
  upper_band : FR
  middle_band : FR
  lower_band : FR

/-- Body of the try-block of calculate_bollinger_bands: pandas rolling
rejects a negative window with a ValueError (the error case); otherwise
middle = rolling mean, upper and lower = middle plus or minus the rolling
standard deviation scaled by num_std. -/
noncomputable def bbBody (closes : List ℚ) (period : ℤ) (num_std : ℝ) :
    Except Unit Bands :=
  if period < 0 then Except.error ()
  else
    let w := period.toNat
    let middle := rollingMeanLastR w closes
    let std := rollingStdLast w closes
    Except.ok
      { upper_band := FR.add middle (FR.mul std (FR.num num_std))
        middle_band := middle
        lower_band := FR.sub middle (FR.mul std (FR.num num_std)) }

/-- TechnicalAnalyzer.calculate_bollinger_bands: None when no data is set
or the series is shorter than the period; the try-block body otherwise,
with every exception caught and turned into None. -/
noncomputable def calculate_bollinger_bands (data : Option (List ℚ))
    (period : ℤ) (num_std : ℝ) : Outcome Bands :=
  match data with
  | none => Outcome.returned none
  | some closes =>
      if (closes.length : ℤ) < period then Outcome.returned none
      else
        match bbBody closes period num_std with
        | Except.error _ => Outcome.returned none
        | Except.ok v => Outcome.returned (some v)

/-- The TechnicalIndicators dataclass: every field defaults to None. -/
structure TechnicalIndicators where
  rsi : Option Fq := none
  macd : Option (ℚ × ℚ × ℚ) := none
  bollinger_bands : Option Bands := none

/-- The RSI indicator identifier. -/
def sRSI : String := "RSI"

/-- The MACD indicator identifier. -/
def sMACD : String := "MACD"

/-- The Bollinger-bands indicator identifier. -/
def sBB : String := "BB"

/-- TechnicalAnalyzer.analyze: an all-None record when no data is set;
otherwise each of the three computations runs exactly when its identifier
is in the requested list (an exact, case-sensitive membership test), with
the default parameters.  A raised exception inside a computation would
propagate, but the computations catch all of theirs. -/
noncomputable def analyze (data : Option (List ℚ)) (indicators : List String) :
    Outcome TechnicalIndicators :=
  match data with
  | none => Outcome.returned (some {})
  | some _ =>
      match (if sRSI ∈ indicators then calculate_rsi data 14
             else Outcome.returned none) with
      | Outcome.raised => Outcome.raised
      | Outcome.returned r =>
          match (if sMACD ∈ indicators then calculate_macd data 12 26 9
                 else Outcome.returned none) with
          | Outcome.raised => Outcome.raised
          | Outcome.returned m =>
              match (if sBB ∈ indicators then calculate_bollinger_bands data 20 2
                     else Outcome.returned none) with
              | Outcome.raised => Outcome.raised
              | Outcome.returned b =>
                  Outcome.returned (some { rsi := r, macd := m, bollinger_bands := b })

/-- The empty indicators option. -/
def emptyOpt : String := ""

/-- The prefix of the validation error message. -/
def errInvalidMsg : String := "Invalid indicators: "

/-- The separator used to join the invalid names in the message. -/
def joinSep : String := ", "

/-- The set of valid indicator identifiers of cli.validate_indicators. -/
def valid_indicator_names : List String := [sRSI, sMACD, sBB]

/-- Python str.upper over the character data (ASCII case map). -/
def pyUpper (s : String) : String :=
  String.mk (s.data.map Char.toUpper)

/-- Python str.strip over the character data: drop leading and trailing
whitespace. -/
def pyStrip (s : String) : String :=
  String.mk (((s.data.dropWhile Char.isWhitespace).reverse.dropWhile
    Char.isWhitespace).reverse)

/-- Python str.split on a single separator character, over the character
data; the empty string splits into one empty token, as in Python. -/
def pySplitComma (s : String) : List String :=
  (s.data.splitOn ',').map String.mk

/-- The per-token normalisation of cli.validate_indicators: strip then
upper-case. -/
def normalizeToken (t : String) : String :=
  pyUpper (pyStrip t)

/-- cli.validate_indicators: the default pair for an empty option;
otherwise split on commas, strip and upper-case every token, and raise a
ValueError when any resulting identifier is unknown. -/
def validate_indicators (s : String) : Except String (List String) :=
  if s = emptyOpt then Except.ok [sRSI, sMACD]
  else
    if (((pySplitComma s).map normalizeToken).filter
        (fun t => ¬ (t ∈ valid_indicator_names))).isEmpty then
      Except.ok ((pySplitComma s).map normalizeToken)
    else
      Except.error (errInvalidMsg ++ String.intercalate joinSep
        (((pySplitComma s).map normalizeToken).filter
          (fun t => ¬ (t ∈ valid_indicator_names))).eraseDups)

/-- The composed dispatcher of the CLI path: validate the requested
identifiers, then run analyze on the validated list. -/
noncomputable def dispatch (data : Option (List ℚ)) (s : String) :
    Except String (Outcome TechnicalIndicators) :=
  match validate_indicators s with
  | Except.error e => Except.error e
  | Except.ok il => Except.ok (analyze data il)

/-- Exponential smoothing of an abstract series, written from the words
of the specification: seeded by the first value of the series, each later
smoothed value puts weight a on the newest observation and 1 - a on the
prior smoothed value. -/
def specSmoothAt (a : ℚ) (f : ℕ → ℚ) : ℕ → ℚ
  | 0 => f 0
  | t + 1 => (1 - a) * specSmoothAt a f t + a * f (t + 1)

/-- A close-price list viewed as a series indexed from 0. -/
def seriesOf (xs : List ℚ) (t : ℕ) : ℚ :=
  xs.getD t 0

/-- The line of the specification: fast-smoothed minus slow-smoothed. -/
def spec_macd_line (fast slow : ℤ) (xs : List ℚ) (t : ℕ) : ℚ :=
  specSmoothAt (alphaOf fast) (seriesOf xs) t - specSmoothAt (alphaOf slow) (seriesOf xs) t

/-- The signal of the specification: the exponential smoothing of the
line with the signal span. -/
def spec_signal_line (fast slow signal : ℤ) (xs : List ℚ) (t : ℕ) : ℚ :=
  specSmoothAt (alphaOf signal) (spec_macd_line fast slow xs) t

/-- The histogram of the specification: line minus signal. -/
def spec_histogram (fast slow signal : ℤ) (xs : List ℚ) (t : ℕ) : ℚ :=
  spec_macd_line fast slow xs t - spec_signal_line fast slow signal xs t

/-- True when an Except value is an error. -/
def exceptIsError {e a : Type} : Except e a → Bool
  | Except.error _ => true
  | Except.ok _ => false

/-- A lower-case indicator request, used by the dispatcher witness. -/
def tLowerRsi : String := "rsi"

/-- An indicator request containing an unknown identifier. -/
def tBadReq : String := "RSI,XYZ"

/-- Exponential smoothing seeded at an explicit previous value; proof
helper relating the list recursion to the indexed recursion. -/
def smoothFrom (a p : ℚ) (f : ℕ → ℚ) : ℕ → ℚ
  | 0 => (1 - a) * p + a * f 0
  | t + 1 => (1 - a) * smoothFrom a p f t + a * f (t + 1)

/-
  Helper lemmas about the momentum pipeline.
-/

lemma mem_gainsOf_nonneg (xs : List ℚ) : ∀ g ∈ gainsOf xs, 0 ≤ g := by
  intro g hg
  rcases List.mem_cons.mp hg with h | h
  · simp [h]
  · rcases List.mem_map.mp h with ⟨d, _, rfl⟩
    by_cases hd : 0 < d
    · simpa [hd] using le_of_lt hd
    · simp [hd]

lemma mem_lossesOf_nonneg (xs : List ℚ) : ∀ g ∈ lossesOf xs, 0 ≤ g := by
  intro g hg
  rcases List.mem_cons.mp hg with h | h
  · simp [h]
  · rcases List.mem_map.mp h with ⟨d, hd, rfl⟩
    by_cases hdn : d < 0
    · simp [hdn]
      linarith
    · simp [hdn]

lemma diffs_length (xs : List ℚ) : (diffs xs).length = xs.length - 1 := by
  cases xs with
  | nil => simp [diffs]
  | cons a t => simp [diffs]

lemma gainsOf_length (xs : List ℚ) (h : xs ≠ []) :
    (gainsOf xs).length = xs.length := by
  have hlen : 1 ≤ xs.length := List.length_pos.mpr h
  simp [gainsOf, diffs_length]
  omega

lemma lossesOf_length (xs : List ℚ) (h : xs ≠ []) :
    (lossesOf xs).length = xs.length := by
  have hlen : 1 ≤ xs.length := List.length_pos.mpr h
  simp [lossesOf, diffs_length]
  omega

lemma avgGainsLast_shape (xs : List ℚ) (w : ℕ) :
    avgGainsLast xs w = Fq.nan ∨ ∃ g, avgGainsLast xs w = Fq.num g ∧ 0 ≤ g := by
  unfold avgGainsLast rollingMeanLast
  split
  · exact Or.inl rfl
  · refine Or.inr ⟨_, rfl, div_nonneg (List.sum_nonneg ?_) (by positivity)⟩
    intro x hx
    exact mem_gainsOf_nonneg xs x (List.mem_of_mem_drop hx)

lemma avgLossesLast_shape (xs : List ℚ) (w : ℕ) :
    avgLossesLast xs w = Fq.nan ∨ ∃ l, avgLossesLast xs w = Fq.num l ∧ 0 ≤ l := by
  unfold avgLossesLast rollingMeanLast
  split
  · exact Or.inl rfl
  · refine Or.inr ⟨_, rfl, div_nonneg (List.sum_nonneg ?_) (by positivity)⟩
    intro x hx
    exact mem_lossesOf_nonneg xs x (List.mem_of_mem_drop hx)

lemma rsiExpr_shape (G L : Fq)
    (hG : G = Fq.nan ∨ ∃ g, G = Fq.num g ∧ 0 ≤ g)
    (hL : L = Fq.nan ∨ ∃ l, L = Fq.num l ∧ 0 ≤ l) :
    Fq.sub (Fq.num 100) (Fq.div (Fq.num 100) (Fq.add (Fq.num 1) (Fq.div G L))) = Fq.nan ∨
      ∃ q, Fq.sub (Fq.num 100) (Fq.div (Fq.num 100) (Fq.add (Fq.num 1) (Fq.div G L)))
          = Fq.num q ∧ 0 ≤ q ∧ q ≤ 100 := by
  rcases hG with rfl | ⟨g, rfl, hg⟩
  · rcases hL with rfl | ⟨l, rfl, hl⟩ <;> simp [Fq.div, Fq.add, Fq.sub]
  · rcases hL with rfl | ⟨l, rfl, hl⟩
    · simp [Fq.div, Fq.add, Fq.sub]
    · by_cases hl0 : l = 0
      · subst hl0
        by_cases hg0 : g = 0
        · subst hg0
          simp [Fq.div, Fq.add, Fq.sub]
        · have hgpos : 0 < g := lt_of_le_of_ne hg (Ne.symm hg0)
          refine Or.inr ⟨100, ?_, by norm_num, le_refl 100⟩
          simp [Fq.div, Fq.add, Fq.sub, hg0, hgpos]
      · have hlpos : 0 < l := lt_of_le_of_ne hl (Ne.symm hl0)
        have h1 : (0 : ℚ) ≤ g / l := div_nonneg hg hl
        have h2 : (1 : ℚ) + g / l ≠ 0 := by positivity
        refine Or.inr ⟨100 - 100 / (1 + g / l), ?_, ?_, ?_⟩
        · simp [Fq.div, Fq.add, Fq.sub, hl0, h2]
        · have h3 : 100 / (1 + g / l) ≤ 100 := div_le_self (by norm_num) (by linarith)
          linarith
        · have h4 : 0 < 100 / (1 + g / l) := by positivity
          linarith

lemma calculate_rsi_eq (closes : List ℚ) (p : ℤ) (h0 : 0 ≤ p)
    (hlen : p ≤ (closes.length : ℤ)) :
    calculate_rsi (some closes) p = Outcome.returned (some
      (Fq.sub (Fq.num 100) (Fq.div (Fq.num 100)
        (Fq.add (Fq.num 1) (Fq.div (avgGainsLast closes p.toNat)
          (avgLossesLast closes p.toNat)))))) := by
  simp [calculate_rsi, rsiBody, not_lt.mpr hlen, not_lt.mpr h0]

lemma calculate_rsi_never_raises (data : Option (List ℚ)) (p : ℤ) :
    (calculate_rsi data p).isRaised = false := by
  cases data with
  | none => rfl
  | some closes =>
      simp only [calculate_rsi]
      split
      · rfl
      · split <;> rfl

lemma rsi_saturates (closes : List ℚ) (p : ℤ) (hp : 1 ≤ p)
    (hlen : p ≤ (closes.length : ℤ))
    (hL : avgLossesLast closes p.toNat = Fq.num 0)
    (hG : ∃ g, avgGainsLast closes p.toNat = Fq.num g ∧ 0 < g) :
    calculate_rsi (some closes) p = Outcome.returned (some (Fq.num 100)) := by
  obtain ⟨g, hg, hgpos⟩ := hG
  rw [calculate_rsi_eq closes p (le_trans (by norm_num) hp) hlen, hg, hL]
  have hg0 : g ≠ 0 := ne_of_gt hgpos
  simp [Fq.div, Fq.add, Fq.sub, hg0, hgpos]

lemma calculate_rsi_inv (data : Option (List ℚ)) (p : ℤ) (v : Fq)
    (h : calculate_rsi data p = Outcome.returned (some v)) :
    ∃ closes, data = some closes ∧ 0 ≤ p ∧ p ≤ (closes.length : ℤ) ∧
      v = Fq.sub (Fq.num 100) (Fq.div (Fq.num 100)
        (Fq.add (Fq.num 1) (Fq.div (avgGainsLast closes p.toNat)
          (avgLossesLast closes p.toNat)))) := by
  cases data with
  | none => simp [calculate_rsi] at h
  | some closes =>
      refine ⟨closes, rfl, ?_⟩
      by_cases hlt : (closes.length : ℤ) < p
      · simp [calculate_rsi, hlt] at h
      · by_cases hp : p < 0
        · simp [calculate_rsi, hlt, rsiBody, hp] at h
        · have := calculate_rsi_eq closes p (not_lt.mp hp) (not_lt.mp hlt)
          rw [this] at h
          simp at h
          exact ⟨not_lt.mp hp, not_lt.mp hlt, h.symm⟩

/-- Claim C1 (amended): if the trailing average loss is exactly zero and
the trailing average gain is strictly positive, calculate_rsi returns
exactly 100; and no present value is ever an infinity.  (When both
trailing averages are zero the pipeline instead returns NaN, so the
original no-NaN guarantee does not hold; see the counterexample.) -/
theorem momentum_zero_loss :
    (∀ (closes : List ℚ) (p : ℤ), 1 ≤ p → p ≤ (closes.length : ℤ) →
      avgLossesLast closes p.toNat = Fq.num 0 →
      (∃ g, avgGainsLast closes p.toNat = Fq.num g ∧ 0 < g) →
      calculate_rsi (some closes) p = Outcome.returned (some (Fq.num 100))) ∧
    (∀ (data : Option (List ℚ)) (p : ℤ) (v : Fq),
      calculate_rsi data p = Outcome.returned (some v) →
      v ≠ Fq.inf ∧ v ≠ Fq.neginf) := by
  constructor
  · exact fun closes p hp hlen hL hG => rsi_saturates closes p hp hlen hL hG
  · intro data p v h
    obtain ⟨closes, -, -, -, hv⟩ := calculate_rsi_inv data p v h
    rcases rsiExpr_shape _ _ (avgGainsLast_shape closes p.toNat)
        (avgLossesLast_shape closes p.toNat) with hs | ⟨q, hs, -, -⟩
    · rw [← hv] at hs
      subst hs
      exact ⟨by simp, by simp⟩
    · rw [← hv] at hs
      subst hs
      exact ⟨by simp, by simp⟩

/-- Witness for C1: a strictly rising pair has zero average loss and
positive average gain, and the momentum value is exactly 100 (and not an
infinity). -/
theorem momentum_zero_loss_witness :
    calculate_rsi (some [1, 2]) 2 = Outcome.returned (some (Fq.num 100)) ∧
    Fq.num 100 ≠ Fq.inf ∧ Fq.num 100 ≠ Fq.neginf := by
  have h1 : calculate_rsi (some [1, 2]) 2 = Outcome.returned (some (Fq.num 100)) :=
    momentum_zero_loss.1 [1, 2] 2 (by norm_num) (by decide)
      (by with_unfolding_all rfl) ⟨1 / 2, by with_unfolding_all rfl, by norm_num⟩
  exact ⟨h1, momentum_zero_loss.2 (some [1, 2]) 2 (Fq.num 100) h1⟩

/-- Counterexample to C1 as stated: on a constant 15-point series the
trailing average loss is exactly zero, yet calculate_rsi returns NaN (a
non-numeric value), not 100. -/
theorem momentum_zero_loss_counterexample :
    avgLossesLast (List.replicate 15 (50 : ℚ)) 14 = Fq.num 0 ∧
    calculate_rsi (some (List.replicate 15 (50 : ℚ))) 14
      = Outcome.returned (some Fq.nan) ∧
    Fq.nan ≠ Fq.num 100 := by
  refine ⟨by with_unfolding_all rfl, by with_unfolding_all rfl, by simp⟩

/-- Claim C2 (amended): whenever calculate_rsi returns a present numeric
value, that value lies in the closed interval [0, 100].  (A present NaN
is also possible, on a window with zero gains and zero losses; see the
counterexample.) -/
theorem momentum_in_range : ∀ (data : Option (List ℚ)) (p : ℤ) (q : ℚ),
    calculate_rsi data p = Outcome.returned (some (Fq.num q)) →
    0 ≤ q ∧ q ≤ 100 := by
  intro data p q h
  obtain ⟨closes, -, -, -, hv⟩ := calculate_rsi_inv data p (Fq.num q) h
  rcases rsiExpr_shape _ _ (avgGainsLast_shape closes p.toNat)
      (avgLossesLast_shape closes p.toNat) with hs | ⟨r, hs, hr0, hr1⟩
  · rw [← hv] at hs
    simp at hs
  · rw [← hv] at hs
    simp only [Fq.num.injEq] at hs
    subst hs
    exact ⟨hr0, hr1⟩

/-- Witness for C2: a mixed up-down series gives the numeric momentum
value 50, which the theorem places in [0, 100]. -/
theorem momentum_in_range_witness : (0 : ℚ) ≤ 50 ∧ (50 : ℚ) ≤ 100 :=
  momentum_in_range (some [2, 1, 2]) 2 50 (by with_unfolding_all rfl)

/-- Counterexample to C2 as stated: on a constant 14-point series the
returned value is present but NaN, which does not lie in [0, 100]. -/
theorem momentum_in_range_counterexample :
    calculate_rsi (some (List.replicate 14 (50 : ℚ))) 14
      = Outcome.returned (some Fq.nan) ∧
    Fq.isNumIn 0 100 Fq.nan = false :=
  ⟨by with_unfolding_all rfl, rfl⟩

/-- Claim C4 (amended): the guard of calculate_rsi is length < n, not
length < n + 1: a series shorter than n yields an absent result, and any
series of length at least n already yields a present value (the first
delta slot is masked to a zero gain and loss). -/
theorem momentum_history_guard : ∀ (closes : List ℚ) (p : ℤ), 1 ≤ p →
    (((closes.length : ℤ) < p →
        calculate_rsi (some closes) p = Outcome.returned none) ∧
     (p ≤ (closes.length : ℤ) →
        (calculate_rsi (some closes) p).isPresent = true)) := by
  intro closes p hp
  constructor
  · intro hlt
    simp [calculate_rsi, hlt]
  · intro hlen
    rw [calculate_rsi_eq closes p (by linarith) hlen]
    rfl

/-- Witness for C4: with window 2, a 1-point series is absent and a
2-point series is already present. -/
theorem momentum_history_guard_witness :
    (1 : ℤ) ≤ 2 ∧ calculate_rsi (some [7]) 2 = Outcome.returned none ∧
    (calculate_rsi (some [7, 8]) 2).isPresent = true :=
  ⟨by norm_num, (momentum_history_guard [7] 2 (by norm_num)).1 (by decide),
   (momentum_history_guard [7, 8] 2 (by norm_num)).2 (by decide)⟩

/-- Counterexample to C4 as stated: a 14-point series with the default
window 14 has fewer than n + 1 observations, yet calculate_rsi returns a
present value (100), not an absent result. -/
theorem momentum_history_guard_counterexample :
    calculate_rsi (some [1, 2, 3, 4, 5, 6, 7, 8, 9, 10, 11, 12, 13, 14]) 14
      = Outcome.returned (some (Fq.num 100)) := by
  with_unfolding_all rfl

lemma lossesOf_all_zero (closes : List ℚ) (hd : ∀ d ∈ diffs closes, 0 ≤ d) :
    ∀ x ∈ lossesOf closes, x = 0 := by
  intro x hx
  rcases List.mem_cons.mp hx with h | h
  · exact h
  · rcases List.mem_map.mp h with ⟨d, hdm, rfl⟩
    simp [not_lt.mpr (hd d hdm)]

lemma avgLossesLast_zero (closes : List ℚ) (p : ℤ) (hp : 1 ≤ p)
    (hlen : p ≤ (closes.length : ℤ)) (hd : ∀ d ∈ diffs closes, 0 ≤ d) :
    avgLossesLast closes p.toNat = Fq.num 0 := by
  have hne : closes ≠ [] := by
    intro h
    rw [h] at hlen
    simp at hlen
    omega
  have hllen : (lossesOf closes).length = closes.length := lossesOf_length closes hne
  unfold avgLossesLast rollingMeanLast
  rw [if_neg (by push_neg; constructor <;> omega)]
  have hsum : (lastWindow p.toNat (lossesOf closes)).sum = 0 :=
    List.sum_eq_zero fun x hx =>
      lossesOf_all_zero closes hd x (List.mem_of_mem_drop hx)
  simp [hsum]

lemma lastWindow_cons (w : ℕ) (a : ℚ) (m : List ℚ) (h : w ≤ m.length) :
    lastWindow w (a :: m) = lastWindow w m := by
  unfold lastWindow
  have h2 : (a :: m).length - w = (m.length - w) + 1 := by
    simp
    omega
  rw [h2, List.drop_succ_cons]

lemma drop_map_comm (f : ℚ → ℚ) : ∀ (n : ℕ) (m : List ℚ),
    List.drop n (m.map f) = (List.drop n m).map f := by
  intro n
  induction n with
  | zero => simp
  | succ k ih =>
      intro m
      cases m with
      | nil => simp
      | cons a t => simp

lemma lastWindow_map (f : ℚ → ℚ) (w : ℕ) (m : List ℚ) :
    lastWindow w (m.map f) = (lastWindow w m).map f := by
  unfold lastWindow
  rw [List.length_map, drop_map_comm]

lemma avgGainsLast_pos (closes : List ℚ) (p : ℤ) (hp : 1 ≤ p)
    (hlen : p + 1 ≤ (closes.length : ℤ))
    (hex : ∃ d ∈ lastWindow p.toNat (diffs closes), 0 < d) :
    ∃ g, avgGainsLast closes p.toNat = Fq.num g ∧ 0 < g := by
  have hne : closes ≠ [] := by
    intro h
    rw [h] at hlen
    simp at hlen
    omega
  have hdl : (diffs closes).length = closes.length - 1 := diffs_length closes
  have hglen : (gainsOf closes).length = closes.length := gainsOf_length closes hne
  have hwd : p.toNat ≤ (diffs closes).length := by omega
  unfold avgGainsLast rollingMeanLast
  rw [if_neg (by push_neg; constructor <;> omega)]
  refine ⟨_, rfl, ?_⟩
  have hwin : lastWindow p.toNat (gainsOf closes)
      = (lastWindow p.toNat (diffs closes)).map (fun d => if 0 < d then d else 0) := by
    unfold gainsOf
    rw [lastWindow_cons _ _ _ (by simpa using hwd), lastWindow_map]
  apply div_pos ?_ (by exact_mod_cast Nat.pos_of_ne_zero (by omega))
  rw [hwin]
  obtain ⟨d0, hd0m, hd0⟩ := hex
  have hnn : ∀ x ∈ (lastWindow p.toNat (diffs closes)).map
      (fun d => if 0 < d then d else 0), 0 ≤ x := by
    intro x hx
    rcases List.mem_map.mp hx with ⟨d, -, rfl⟩
    split
    · linarith
    · exact le_refl 0
  have hmem : (if 0 < d0 then d0 else 0) ∈ (lastWindow p.toNat (diffs closes)).map
      (fun d => if 0 < d then d else 0) := List.mem_map_of_mem _ hd0m
  have hle := List.single_le_sum hnn _ hmem
  rw [if_pos hd0] at hle
  linarith

/-- Claim C9 (amended): if every per-step price change is non-negative
and at least one change inside the trailing window is strictly positive,
the momentum value is exactly 100.  (A window whose changes are all zero
instead yields NaN; see the counterexample.)  The concrete rising
30-point scenario is the witness. -/
theorem momentum_monotone : ∀ (closes : List ℚ) (p : ℤ), 1 ≤ p →
    p + 1 ≤ (closes.length : ℤ) → (∀ d ∈ diffs closes, 0 ≤ d) →
    (∃ d ∈ lastWindow p.toNat (diffs closes), 0 < d) →
    calculate_rsi (some closes) p = Outcome.returned (some (Fq.num 100)) := by
  intro closes p hp hlen hd hex
  exact rsi_saturates closes p hp (by linarith)
    (avgLossesLast_zero closes p hp (by linarith) hd)
    (avgGainsLast_pos closes p hp hlen hex)

/-- Witness for C9: the 30-period series rising linearly from 100 to 129
with the default window 14 yields momentum exactly 100. -/
theorem momentum_monotone_witness :
    calculate_rsi (some ((List.range 30).map (fun i => (100 : ℚ) + i))) 14
      = Outcome.returned (some (Fq.num 100)) :=
  momentum_monotone ((List.range 30).map (fun i => (100 : ℚ) + i)) 14
    (by norm_num) (by decide) (by with_unfolding_all decide)
    (by with_unfolding_all decide)

/-- Counterexample to C9 as stated: a constant 16-point series has only
non-negative per-step changes, yet the momentum value is NaN, not 100. -/
theorem momentum_monotone_counterexample :
    ((diffs (List.replicate 16 (7 : ℚ))).all (fun d => decide (0 ≤ d))) = true ∧
    calculate_rsi (some (List.replicate 16 (7 : ℚ))) 14
      = Outcome.returned (some Fq.nan) ∧
    Fq.nan ≠ Fq.num 100 := by
  refine ⟨by with_unfolding_all rfl, by with_unfolding_all rfl, by simp⟩

lemma calculate_macd_never_raises (data : Option (List ℚ)) (fast slow signal : ℤ) :
    (calculate_macd data fast slow signal).isRaised = false := by
  cases data with
  | none => rfl
  | some closes =>
      simp only [calculate_macd]
      split
      · rfl
      · split <;> rfl

lemma calculate_bollinger_bands_never_raises (data : Option (List ℚ)) (p : ℤ)
    (k : ℝ) : (calculate_bollinger_bands data p k).isRaised = false := by
  cases data with
  | none => rfl
  | some closes =>
      simp only [calculate_bollinger_bands]
      split
      · rfl
      · split <;> rfl

/-- Claim C7 (amended): a non-positive window or span parameter never
surfaces a validation error to the caller: every indicator method wraps
its computation in a catch-all handler, so the call returns normally (the
internal failure is silently turned into an absent result). -/
theorem no_error_surfaces : ∀ (data : Option (List ℚ)) (p fast slow signal w : ℤ)
    (k : ℝ), p ≤ 0 → slow ≤ 0 → w ≤ 0 →
    (calculate_rsi data p).isRaised = false ∧
    (calculate_macd data fast slow signal).isRaised = false ∧
    (calculate_bollinger_bands data w k).isRaised = false := by
  intro data p fast slow signal w k hp hs hw
  exact ⟨calculate_rsi_never_raises data p,
    calculate_macd_never_raises data fast slow signal,
    calculate_bollinger_bands_never_raises data w k⟩

/-- Witness for C7: zero-valued window and span parameters on a concrete
series produce normal returns, not raised errors. -/
theorem no_error_surfaces_witness :
    (calculate_rsi (some [1, 2, 3]) 0).isRaised = false ∧
    (calculate_macd (some [1, 2, 3]) 12 0 9).isRaised = false ∧
    (calculate_bollinger_bands (some [1, 2, 3]) 0 2).isRaised = false :=
  no_error_surfaces (some [1, 2, 3]) 0 12 0 9 0 2 (by norm_num) (by norm_num)
    (by norm_num)

/-- Counterexample to C7 as stated: a negative momentum window makes the
pandas rolling call fail inside the try-block, but the method swallows
the exception and returns None; no validation error reaches the caller. -/
theorem no_error_surfaces_counterexample :
    calculate_rsi (some [1, 2, 3]) (-1) = Outcome.returned none ∧
    (calculate_rsi (some [1, 2, 3]) (-1)).isRaised = false :=
  ⟨by with_unfolding_all rfl, by with_unfolding_all rfl⟩

lemma calculate_macd_present (closes : List ℚ) (fast slow signal : ℤ)
    (hf : 1 ≤ fast) (hs : 1 ≤ slow) (hg : 1 ≤ signal)
    (hlen : slow ≤ (closes.length : ℤ)) :
    (calculate_macd (some closes) fast slow signal).isPresent = true := by
  have hcond : ¬ (fast < 1 ∨ slow < 1 ∨ signal < 1) := by
    push_neg
    exact ⟨hf, hs, hg⟩
  simp [calculate_macd, macdBody, not_lt.mpr hlen, hcond, Outcome.isPresent]

lemma calculate_bb_present (closes : List ℚ) (p : ℤ) (k : ℝ) (h0 : 0 ≤ p)
    (hlen : p ≤ (closes.length : ℤ)) :
    (calculate_bollinger_bands (some closes) p k).isPresent = true := by
  simp [calculate_bollinger_bands, bbBody, not_lt.mpr hlen, not_lt.mpr h0,
    Outcome.isPresent]

/-- Claim C5: for each window-n indicator (momentum window n, bands
window n, convergence slow span n, each with the other parameters at
their defaults), a series of length n - 1 yields an absent result and a
series of length n yields a present result. -/
theorem insufficient_history_boundary : ∀ (n : ℕ), 1 ≤ n → ∀ (xs ys : List ℚ),
    xs.length = n - 1 → ys.length = n →
    (calculate_rsi (some xs) (n : ℤ) = Outcome.returned none ∧
     (calculate_rsi (some ys) (n : ℤ)).isPresent = true) ∧
    (calculate_macd (some xs) 12 (n : ℤ) 9 = Outcome.returned none ∧
     (calculate_macd (some ys) 12 (n : ℤ) 9).isPresent = true) ∧
    (calculate_bollinger_bands (some xs) (n : ℤ) 2 = Outcome.returned none ∧
     (calculate_bollinger_bands (some ys) (n : ℤ) 2).isPresent = true) := by
  intro n hn xs ys hx hy
  have hxlt : (xs.length : ℤ) < (n : ℤ) := by rw [hx]; omega
  have hyle : ((n : ℕ) : ℤ) ≤ (ys.length : ℤ) := by rw [hy]
  refine ⟨⟨?_, ?_⟩, ⟨?_, ?_⟩, ⟨?_, ?_⟩⟩
  · simp [calculate_rsi, hxlt]
  · rw [calculate_rsi_eq ys (n : ℤ) (by positivity) hyle]
    rfl
  · simp [calculate_macd, hxlt]
  · exact calculate_macd_present ys 12 (n : ℤ) 9 (by norm_num)
      (by exact_mod_cast hn) (by norm_num) hyle
  · simp [calculate_bollinger_bands, hxlt]
  · exact calculate_bb_present ys (n : ℤ) 2 (by positivity) hyle

/-- Witness for C5: with n = 2, a 1-point series is absent and a 2-point
series is present, for all three indicators. -/
theorem insufficient_history_boundary_witness :
    (calculate_rsi (some [5]) 2 = Outcome.returned none ∧
     (calculate_rsi (some [5, 6]) 2).isPresent = true) ∧
    (calculate_macd (some [5]) 12 2 9 = Outcome.returned none ∧
     (calculate_macd (some [5, 6]) 12 2 9).isPresent = true) ∧
    (calculate_bollinger_bands (some [5]) 2 2 = Outcome.returned none ∧
     (calculate_bollinger_bands (some [5, 6]) 2 2).isPresent = true) :=
  insufficient_history_boundary 2 (by norm_num) [5] [5, 6] rfl rfl

/-- Claim C3 (amended): for every window of at least 2 and every
multiplier k ≥ 0, a present band triple satisfies lower ≤ middle ≤ upper.
(For window 1 the rolling sample standard deviation is NaN, so the
present triple has NaN outer bands and the ordering fails; see the
counterexample.) -/
theorem volatility_bands_ordered : ∀ (xs : List ℚ) (p : ℤ) (k : ℝ) (b : Bands),
    2 ≤ p → 0 ≤ k →
    calculate_bollinger_bands (some xs) p k = Outcome.returned (some b) →
    FR.Le b.lower_band b.middle_band ∧ FR.Le b.middle_band b.upper_band := by
  intro xs p k b hp hk h
  by_cases hlt : (xs.length : ℤ) < p
  · simp [calculate_bollinger_bands, hlt] at h
  · have hple : p ≤ (xs.length : ℤ) := not_lt.mp hlt
    have hp0 : ¬ p < 0 := by omega
    simp [calculate_bollinger_bands, bbBody, hlt, hp0] at h
    have hm : rollingMeanLastR p.toNat xs
        = FR.num ((windowMean p.toNat xs : ℚ) : ℝ) := by
      unfold rollingMeanLastR
      rw [if_neg (by push_neg; omega)]
    have hsd : rollingStdLast p.toNat xs
        = FR.num (Real.sqrt ((windowVarQ p.toNat xs : ℚ) : ℝ)) := by
      unfold rollingStdLast
      rw [if_neg (by push_neg; omega)]
    rw [hm, hsd] at h
    have hprod : 0 ≤ Real.sqrt ((windowVarQ p.toNat xs : ℚ) : ℝ) * k :=
      mul_nonneg (Real.sqrt_nonneg _) hk
    rw [← h]
    simp [FR.sub, FR.mul, FR.add, FR.Le]
    linarith

/-- Witness for C3: a constant 2-point series with window 2 and k = 2
gives the present triple (5, 5, 5), which the theorem orders. -/
theorem volatility_bands_ordered_witness :
    FR.Le (FR.num 5) (FR.num 5) ∧ FR.Le (FR.num 5) (FR.num 5) := by
  have ht : (2 : ℤ).toNat = 2 := rfl
  have h : calculate_bollinger_bands (some [5, 5]) 2 2
      = Outcome.returned (some ⟨FR.num 5, FR.num 5, FR.num 5⟩) := by
    norm_num [calculate_bollinger_bands, bbBody, rollingMeanLastR, rollingStdLast,
      windowMean, windowVarQ, lastWindow, FR.add, FR.sub, FR.mul, ht,
      Real.sqrt_zero, Real.sqrt_one]
  exact volatility_bands_ordered [5, 5] 2 2 ⟨FR.num 5, FR.num 5, FR.num 5⟩
    (by norm_num) (by norm_num) h

/-- Counterexample to C3 as stated: window 1 is positive, yet the present
triple on a 1-point series is (NaN, 5, NaN) and NaN is not below the
middle band under an IEEE comparison. -/
theorem volatility_bands_ordered_counterexample :
    calculate_bollinger_bands (some [5]) 1 2
      = Outcome.returned (some ⟨FR.nan, FR.num 5, FR.nan⟩) ∧
    ¬ FR.Le FR.nan (FR.num 5) := by
  constructor
  · norm_num [calculate_bollinger_bands, bbBody, rollingMeanLastR, rollingStdLast,
      windowMean, lastWindow, FR.add, FR.sub, FR.mul]
  · simp [FR.Le]

/-- Claim C10: invoking the dispatcher before any price series has been
supplied returns a result whose three indicator fields are all absent,
without raising an error. -/
theorem analyze_without_data : ∀ (il : List String),
    analyze none il = Outcome.returned
      (some { rsi := none, macd := none, bollinger_bands := none }) :=
  fun _ => rfl

lemma analyze_fields (data : Option (List ℚ)) (il : List String)
    (r : TechnicalIndicators)
    (h : analyze data il = Outcome.returned (some r)) :
    (¬ sRSI ∈ il → r.rsi = none) ∧ (¬ sMACD ∈ il → r.macd = none) ∧
    (¬ sBB ∈ il → r.bollinger_bands = none) := by
  cases data with
  | none =>
      simp [analyze] at h
      subst h
      exact ⟨fun _ => rfl, fun _ => rfl, fun _ => rfl⟩
  | some closes =>
      simp only [analyze] at h
      cases h1 : (if sRSI ∈ il then calculate_rsi (some closes) 14
          else Outcome.returned none) with
      | raised => rw [h1] at h; simp at h
      | returned r1 =>
          rw [h1] at h
          cases h2 : (if sMACD ∈ il then calculate_macd (some closes) 12 26 9
              else Outcome.returned none) with
          | raised => rw [h2] at h; simp at h
          | returned r2 =>
              rw [h2] at h
              cases h3 : (if sBB ∈ il then calculate_bollinger_bands (some closes) 20 2
                  else Outcome.returned none) with
              | raised => rw [h3] at h; simp at h
              | returned r3 =>
                  rw [h3] at h
                  simp at h
                  subst h
                  refine ⟨fun hn => ?_, fun hn => ?_, fun hn => ?_⟩
                  · rw [if_neg hn] at h1
                    simpa using h1.symm
                  · rw [if_neg hn] at h2
                    simpa using h2.symm
                  · rw [if_neg hn] at h3
                    simpa using h3.symm

/-- Claim C6: the dispatcher pipeline treats indicator identifiers
case-insensitively (its result depends only on the stripped, upper-cased
tokens), rejects any non-empty request containing an identifier outside
the RSI/MACD/BB enumeration with a validation error, and leaves absent
every indicator field that was not requested. -/
theorem dispatcher_contract :
    (∀ (data : Option (List ℚ)) (s1 s2 : String),
      (pySplitComma s1).map normalizeToken = (pySplitComma s2).map normalizeToken →
      (s1 = emptyOpt ↔ s2 = emptyOpt) → dispatch data s1 = dispatch data s2) ∧
    (∀ (data : Option (List ℚ)) (s : String), s ≠ emptyOpt →
      (∃ t ∈ pySplitComma s, ¬ normalizeToken t ∈ valid_indicator_names) →
      exceptIsError (dispatch data s) = true) ∧
    (∀ (data : Option (List ℚ)) (il : List String) (r : TechnicalIndicators),
      analyze data il = Outcome.returned (some r) →
      (¬ sRSI ∈ il → r.rsi = none) ∧ (¬ sMACD ∈ il → r.macd = none) ∧
      (¬ sBB ∈ il → r.bollinger_bands = none)) := by
  refine ⟨?_, ?_, fun data il r h => analyze_fields data il r h⟩
  · intro data s1 s2 hmap hempty
    suffices hval : validate_indicators s1 = validate_indicators s2 by
      simp [dispatch, hval]
    by_cases h1 : s1 = emptyOpt
    · rw [validate_indicators, validate_indicators, if_pos h1,
        if_pos (hempty.mp h1)]
    · rw [validate_indicators, validate_indicators, if_neg h1,
        if_neg (fun hh => h1 (hempty.mpr hh)), hmap]
  · intro data s hs hex
    obtain ⟨t, ht, hbad⟩ := hex
    have hmemf : normalizeToken t ∈ ((pySplitComma s).map normalizeToken).filter
        (fun t => ¬ (t ∈ valid_indicator_names)) :=
      List.mem_filter.mpr ⟨List.mem_map_of_mem _ ht, by simpa using hbad⟩
    have hval : exceptIsError (validate_indicators s) = true := by
      rw [validate_indicators, if_neg hs]
      cases hfe : ((pySplitComma s).map normalizeToken).filter
          (fun t => ¬ (t ∈ valid_indicator_names)) with
      | nil => rw [hfe] at hmemf; simp at hmemf
      | cons a rest => rfl
    cases hv : validate_indicators s with
    | error e => simp [dispatch, hv, exceptIsError]
    | ok l => rw [hv] at hval; simp [exceptIsError] at hval

/-- Witness for C6: the lower-case request names the same indicator as
the canonical one, an unknown identifier is rejected, and an empty
request list leaves all three fields absent. -/
theorem dispatcher_contract_witness :
    dispatch none tLowerRsi = dispatch none sRSI ∧
    exceptIsError (dispatch none tBadReq) = true ∧
    (TechnicalIndicators.rsi {} = none ∧ TechnicalIndicators.macd {} = none ∧
      TechnicalIndicators.bollinger_bands {} = none) := by
  refine ⟨?_, ?_, ?_⟩
  · exact dispatcher_contract.1 none tLowerRsi sRSI (by with_unfolding_all rfl)
      (by decide)
  · exact dispatcher_contract.2.1 none tBadReq (by decide)
      (by with_unfolding_all decide)
  · have h := dispatcher_contract.2.2 none [] {} rfl
    exact ⟨h.1 (by decide), h.2.1 (by decide), h.2.2 (by decide)⟩

lemma ewmaGo_length (a : ℚ) : ∀ (ys : List ℚ) (p : ℚ),
    (ewmaGo a p ys).length = ys.length := by
  intro ys
  induction ys with
  | nil => intro p; rfl
  | cons y rest ih => intro p; simp [ewmaGo, ih]

lemma ewma_length (a : ℚ) (xs : List ℚ) : (ewma a xs).length = xs.length := by
  cases xs with
  | nil => rfl
  | cons x rest => simp [ewma, ewmaGo_length]

lemma smoothFrom_shift (a p : ℚ) (f : ℕ → ℚ) : ∀ (t : ℕ),
    smoothFrom a ((1 - a) * p + a * f 0) (fun i => f (i + 1)) t
      = smoothFrom a p f (t + 1) := by
  intro t
  induction t with
  | zero => rfl
  | succ k ih => simp [smoothFrom, ih]

lemma ewmaGo_getD (a : ℚ) : ∀ (ys : List ℚ) (p : ℚ) (t : ℕ), t < ys.length →
    (ewmaGo a p ys).getD t 0 = smoothFrom a p (fun i => ys.getD i 0) t := by
  intro ys
  induction ys with
  | nil => intro p t ht; simp at ht
  | cons y rest ih =>
      intro p t ht
      cases t with
      | zero => simp [ewmaGo, smoothFrom]
      | succ k =>
          have hk : k < rest.length := by simpa using ht
          rw [show ewmaGo a p (y :: rest)
              = ((1 - a) * p + a * y) :: ewmaGo a ((1 - a) * p + a * y) rest from rfl]
          rw [List.getD_cons_succ, ih ((1 - a) * p + a * y) k hk]
          rw [← smoothFrom_shift a p (fun i => (y :: rest).getD i 0) k]
          congr 1

lemma specSmoothAt_succ (a : ℚ) (f : ℕ → ℚ) : ∀ (t : ℕ),
    specSmoothAt a f (t + 1) = smoothFrom a (f 0) (fun i => f (i + 1)) t := by
  intro t
  induction t with
  | zero => rfl
  | succ k ih =>
      rw [show specSmoothAt a f (k + 1 + 1)
          = (1 - a) * specSmoothAt a f (k + 1) + a * f (k + 1 + 1) from rfl, ih]
      rfl

lemma ewma_getD (a : ℚ) (xs : List ℚ) (t : ℕ) (ht : t < xs.length) :
    (ewma a xs).getD t 0 = specSmoothAt a (seriesOf xs) t := by
  cases xs with
  | nil => simp at ht
  | cons x rest =>
      cases t with
      | zero => simp [ewma, specSmoothAt, seriesOf]
      | succ k =>
          have hk : k < rest.length := by simpa using ht
          rw [show ewma a (x :: rest) = x :: ewmaGo a x rest from rfl,
            List.getD_cons_succ, ewmaGo_getD a rest x k hk, specSmoothAt_succ]
          congr 1

lemma zipWith_sub_getD : ∀ (u v : List ℚ) (t : ℕ), t < u.length → t < v.length →
    (List.zipWith (fun a b => a - b) u v).getD t 0 = u.getD t 0 - v.getD t 0 := by
  intro u
  induction u with
  | nil => intro v t ht _; simp at ht
  | cons a u ih =>
      intro v t ht hv
      cases v with
      | nil => simp at hv
      | cons b v =>
          cases t with
          | zero => simp
          | succ k =>
              simp only [List.zipWith_cons_cons, List.getD_cons_succ]
              exact ih v k (by simpa using ht) (by simpa using hv)

lemma specSmoothAt_congr (a : ℚ) (f g : ℕ → ℚ) : ∀ (t : ℕ),
    (∀ i, i ≤ t → f i = g i) → specSmoothAt a f t = specSmoothAt a g t := by
  intro t
  induction t with
  | zero => intro h; simpa [specSmoothAt] using h 0 (le_refl 0)
  | succ k ih =>
      intro h
      simp only [specSmoothAt]
      rw [ih (fun i hi => h i (le_trans hi (Nat.le_succ k))), h (k + 1) (le_refl _)]

/-- Claim C8: with positive spans and enough history, calculate_macd
returns exactly the triple described by the specification recursion: the
line is fast-smoothed minus slow-smoothed, the signal is the exponential
smoothing of the line, the histogram is line minus signal, each smoothing
seeded by the first value of its series with weight 2/(span+1) on the
newest observation, run over the whole history and read at the latest
point. -/
theorem convergence_matches_spec : ∀ (xs : List ℚ) (fast slow signal : ℤ),
    1 ≤ fast → 1 ≤ slow → 1 ≤ signal → slow ≤ (xs.length : ℤ) →
    calculate_macd (some xs) fast slow signal = Outcome.returned (some
      (spec_macd_line fast slow xs (xs.length - 1),
       spec_signal_line fast slow signal xs (xs.length - 1),
       spec_histogram fast slow signal xs (xs.length - 1))) := by
  intro xs f sl sg hf hs hg hlen
  have hn1 : 1 ≤ xs.length := by omega
  have hcond : ¬ (f < 1 ∨ sl < 1 ∨ sg < 1) := by
    push_neg
    exact ⟨hf, hs, hg⟩
  have hflen : (ewmMean f xs).length = xs.length := by
    simp [ewmMean, ewma_length]
  have hslen : (ewmMean sl xs).length = xs.length := by
    simp [ewmMean, ewma_length]
  have hlinelen : (List.zipWith (fun a b => a - b) (ewmMean f xs)
      (ewmMean sl xs)).length = xs.length := by
    rw [List.length_zipWith, hflen, hslen, Nat.min_self]
  have hsiglen : (ewmMean sg (List.zipWith (fun a b => a - b) (ewmMean f xs)
      (ewmMean sl xs))).length = xs.length := by
    simp [ewmMean, ewma_length, hlinelen]
  have hline_getD : ∀ t, t < xs.length →
      (List.zipWith (fun a b => a - b) (ewmMean f xs) (ewmMean sl xs)).getD t 0
        = spec_macd_line f sl xs t := by
    intro t ht
    rw [zipWith_sub_getD _ _ t (by rw [hflen]; exact ht) (by rw [hslen]; exact ht)]
    simp only [ewmMean]
    rw [ewma_getD (alphaOf f) xs t ht, ewma_getD (alphaOf sl) xs t ht]
    rfl
  have hsig_getD : ∀ t, t < xs.length →
      (ewmMean sg (List.zipWith (fun a b => a - b) (ewmMean f xs)
        (ewmMean sl xs))).getD t 0 = spec_signal_line f sl sg xs t := by
    intro t ht
    rw [show ewmMean sg (List.zipWith (fun a b => a - b) (ewmMean f xs)
        (ewmMean sl xs)) = ewma (alphaOf sg) (List.zipWith (fun a b => a - b)
        (ewmMean f xs) (ewmMean sl xs)) from rfl]
    rw [ewma_getD (alphaOf sg) _ t (by rw [hlinelen]; exact ht)]
    unfold spec_signal_line
    apply specSmoothAt_congr
    intro i hi
    rw [seriesOf, hline_getD i (lt_of_le_of_lt hi ht)]
  have heq : calculate_macd (some xs) f sl sg = Outcome.returned (some
      (ilocLast (List.zipWith (fun a b => a - b) (ewmMean f xs) (ewmMean sl xs)),
       ilocLast (ewmMean sg (List.zipWith (fun a b => a - b) (ewmMean f xs)
         (ewmMean sl xs))),
       ilocLast (List.zipWith (fun a b => a - b)
         (List.zipWith (fun a b => a - b) (ewmMean f xs) (ewmMean sl xs))
         (ewmMean sg (List.zipWith (fun a b => a - b) (ewmMean f xs)
           (ewmMean sl xs)))))) := by
    simp [calculate_macd, macdBody, not_lt.mpr hlen, hcond]
  rw [heq]
  have hlast : xs.length - 1 < xs.length := by omega
  have h1 : ilocLast (List.zipWith (fun a b => a - b) (ewmMean f xs)
      (ewmMean sl xs)) = spec_macd_line f sl xs (xs.length - 1) := by
    rw [ilocLast, hlinelen, hline_getD (xs.length - 1) hlast]
  have h2 : ilocLast (ewmMean sg (List.zipWith (fun a b => a - b) (ewmMean f xs)
      (ewmMean sl xs))) = spec_signal_line f sl sg xs (xs.length - 1) := by
    rw [ilocLast, hsiglen, hsig_getD (xs.length - 1) hlast]
  have h3 : ilocLast (List.zipWith (fun a b => a - b)
      (List.zipWith (fun a b => a - b) (ewmMean f xs) (ewmMean sl xs))
      (ewmMean sg (List.zipWith (fun a b => a - b) (ewmMean f xs)
        (ewmMean sl xs)))) = spec_histogram f sl sg xs (xs.length - 1) := by
    rw [ilocLast, List.length_zipWith, hlinelen, hsiglen, Nat.min_self,
      zipWith_sub_getD _ _ _ (by rw [hlinelen]; exact hlast)
        (by rw [hsiglen]; exact hlast),
      hline_getD (xs.length - 1) hlast, hsig_getD (xs.length - 1) hlast]
    rfl
  rw [h1, h2, h3]

/-- Witness for C8: the concrete series (1, 2, 3) with spans 2, 3, 2
realises the specification triple. -/
theorem convergence_matches_spec_witness :
    calculate_macd (some [1, 2, 3]) 2 3 2 = Outcome.returned (some
      (spec_macd_line 2 3 [1, 2, 3] ([1, 2, 3].length - 1),
       spec_signal_line 2 3 2 [1, 2, 3] ([1, 2, 3].length - 1),
       spec_histogram 2 3 2 [1, 2, 3] ([1, 2, 3].length - 1))) :=
  convergence_matches_spec [1, 2, 3] 2 3 2 (by norm_num) (by norm_num)
    (by norm_num) (by decide)
